import Mathlib

/-!
Verification of the SQL Fight Club orchestration core.

This file gives a shallow embedding, in Lean 4, of the pure parts of the
repository's core modules:

* `app/utils/sql_safety.py`   — the admission filter `is_select_only`;
* `app/core/scoring.py`       — the heuristic `complexity_score`;
* `app/core/fight_manager.py` — `introspect_schema`'s formatting loop,
  `_sanitize_table_name`, `_theme_prompt`, `_difficulty_prompt`,
  `_estimate_tokens`, `_summarize_result`, and `FightManager.run_fight`;
* `sql_fight_manager.py`      — the legacy `FightManager.execute_round`.

Python strings are modelled as Lean `String`s (character lists); the
ASCII fragments of Python's `str.lower`, `str.strip`, `str.isalnum`,
`str.isdigit` and of the regex classes `\s` and `\w` are modelled
exactly (the queries and keywords involved are ASCII).  Python floats in
the scorer are modelled as rationals: every weight is an exact decimal
and every reachable score is a multiple of 1/10, far from any rounding
boundary, so rational arithmetic agrees with the float computation at
the printed 2-decimal precision.  Wall-clock durations are not modelled
(they are environment noise, fixed to 0 where a record requires a value).
The database handle and the LLM agents are external collaborators and are
modelled as opaque functions, exactly as the code treats them.
-/

/-- ASCII whitespace, as recognised by Python's `str.strip` and by the
regex class `\s` (space, tab, newline, vertical tab, form feed,
carriage return). -/
def pyIsSpace (c : Char) : Bool :=
  c == ' ' || c == Char.ofNat 9 || c == Char.ofNat 10 || c == Char.ofNat 11 ||
    c == Char.ofNat 12 || c == Char.ofNat 13

/-- ASCII lowercasing, the fragment of Python's `str.lower` exercised by
the code (all keywords and comparisons in the sources are ASCII). -/
def pyToLower (c : Char) : Char := c.toLower

/-- A regex word character (`\w` restricted to ASCII): letter, digit or
underscore. -/
def pyIsWordChar (c : Char) : Bool := c.isAlphanum || c == '_'

/-- ASCII alphanumeric, the fragment of Python's `str.isalnum` exercised
by the code. -/
def pyIsAlnum (c : Char) : Bool := c.isAlphanum

/-- ASCII digit, the fragment of Python's `str.isdigit` exercised by the
code. -/
def pyIsDigit (c : Char) : Bool := c.isDigit

/-- A single-quote character, built numerically. -/
def sqc : String := String.singleton (Char.ofNat 39)

/-- Python's `str.strip()` on a character list: remove leading and
trailing whitespace. -/
def pyStrip (s : List Char) : List Char :=
  ((s.dropWhile pyIsSpace).reverse.dropWhile pyIsSpace).reverse

/-- `pyStrip` packaged on `String`. -/
def pyStripStr (s : String) : String := String.mk (pyStrip s.toList)

/-- `needle` is a prefix of `hay` (character-by-character). -/
def isPrefixOfC : List Char → List Char → Bool
  | [], _ => true
  | _ :: _, [] => false
  | a :: as, b :: bs => a == b && isPrefixOfC as bs

/-- Python's substring containment `needle in hay`. -/
def containsSub (needle : List Char) : List Char → Bool
  | [] => isPrefixOfC needle []
  | c :: rest => isPrefixOfC needle (c :: rest) || containsSub needle rest

/-- Helper for `countSub`: `skip` characters remain to be consumed before
the search may resume (Python's `str.count` counts non-overlapping
occurrences, resuming after each match). -/
def countSubAux (needle : List Char) : Nat → List Char → Nat
  | _, [] => 0
  | Nat.succ k, _ :: rest => countSubAux needle k rest
  | 0, c :: rest =>
    if isPrefixOfC needle (c :: rest) then
      1 + countSubAux needle (needle.length - 1) rest
    else
      countSubAux needle 0 rest

/-- Python's `str.count(needle)` for a non-empty `needle`: the number of
non-overlapping occurrences, scanning left to right.  (For the empty
needle Python returns `len + 1`; the sources only count fixed non-empty
literals.) -/
def countSub (needle hay : List Char) : Nat := countSubAux needle 0 hay

/-- Round-half-to-even on a rational, Python's `round` tie rule.  (For
every value reachable in this development the fractional part is never
exactly 1/2, so the tie rule is never exercised.) -/
def roundHalfEven (q : ℚ) : ℤ :=
  let f := Int.floor q
  let frac := q - f
  if frac < 1/2 then f
  else if 1/2 < frac then f + 1
  else if f % 2 = 0 then f else f + 1

/-- Python's `round(x, 2)` on rationals. -/
def round2 (q : ℚ) : ℚ := (roundHalfEven (q * 100) : ℚ) / 100

/-! ## `app/utils/sql_safety.py` -/

/-- Matcher for `re.compile(r"^\s*select\b", re.IGNORECASE).match`: skip
leading whitespace (the pattern `\s*` is effectively maximal here since
`select` starts with a non-whitespace character), then require the
case-insensitive literal `select` followed by a word boundary. -/
def selectOnlyPatternMatch (s : List Char) : Bool :=
  let t := s.dropWhile pyIsSpace
  isPrefixOfC ("select").toList (t.map pyToLower) &&
    (match t.drop 6 with
     | [] => true
     | c :: _ => !pyIsWordChar c)

/-- The denylist from `app/utils/sql_safety.py`. -/
def FORBIDDEN_KEYWORDS : List String :=
  ["insert", "update", "delete", "drop", "alter", "truncate",
   "create table", "create schema", "attach", "copy", "pragma"]

/-- `is_select_only` from `app/utils/sql_safety.py`: must match the
SELECT pattern and must not contain any denylisted substring,
case-insensitively. -/
def is_select_only (sql : String) : Bool :=
  if !selectOnlyPatternMatch sql.toList then false
  else
    let lowered := sql.toList.map pyToLower
    if FORBIDDEN_KEYWORDS.any (fun kw => containsSub kw.toList lowered) then false
    else true

/-- The spec's admission precondition: the text begins, after leading
whitespace, with the case-insensitive token `SELECT` (the word `select`
followed by a word boundary).  Stated from the spec's words, for
comparison with the code's pattern. -/
def beginsWithSelectToken (sql : String) : Bool :=
  let t := sql.toList.dropWhile pyIsSpace
  isPrefixOfC ("select").toList (t.map pyToLower) &&
    (match t.drop 6 with
     | [] => true
     | c :: _ => !pyIsWordChar c)

/-! ## `app/core/scoring.py` -/

/-- The six counted substrings of `complexity_score`. -/
def kwJoin : List Char := (" join ").toList
def kwGroupBy : List Char := (" group by ").toList
def kwOrderBy : List Char := (" order by ").toList
def kwOver : List Char := (" over(").toList
def kwCase : List Char := (" case ").toList
def kwParen : List Char := ("(").toList

/-- `complexity_score` from `app/core/scoring.py`: weighted substring
counts over the lowercased text, rounded to two decimals.  Weights are
the exact decimals `2`, `1.5`, `1.0`, `3.0`, `1.5`, `0.2`. -/
def complexity_score (sql : String) : ℚ :=
  let s := sql.toList.map pyToLower
  let score : ℚ := 0
  let score := score + (countSub kwJoin s : ℚ) * 2
  let score := score + (countSub kwGroupBy s : ℚ) * (3/2)
  let score := score + (countSub kwOrderBy s : ℚ) * 1
  let score := score + (countSub kwOver s : ℚ) * 3
  let score := score + (countSub kwCase s : ℚ) * (3/2)
  let score := score + (countSub kwParen s : ℚ) * (1/5)
  round2 score

/-- The counted substring at index `j`, in the order the code adds them. -/
def scoreNeedle (j : Fin 6) : List Char :=
  if j.val = 0 then kwJoin
  else if j.val = 1 then kwGroupBy
  else if j.val = 2 then kwOrderBy
  else if j.val = 3 then kwOver
  else if j.val = 4 then kwCase
  else kwParen

/-- The weight attached to the counted substring at index `j`. -/
def scoreWeight (j : Fin 6) : ℚ :=
  if j.val = 0 then 2
  else if j.val = 1 then 3/2
  else if j.val = 2 then 1
  else if j.val = 3 then 3
  else if j.val = 4 then 3/2
  else 1/5

/-- The case-insensitive occurrence count of the `j`-th counted substring
in `sql`, exactly as the scorer counts it. -/
def cntAt (j : Fin 6) (sql : String) : Nat :=
  countSub (scoreNeedle j) (sql.toList.map pyToLower)

/-! ## `introspect_schema` (`app/core/fight_manager.py`)

The catalog query (`information_schema.columns` ordered by table name
and ordinal position) is the database boundary; it yields one
`(table_name, column_name, data_type)` row per column.  The formatting
loop below is the code's pure part, taking those rows as input. -/

/-- The header line the loop appends when the table changes. -/
def headerLine (t : String) : String := "\nTABLE " ++ t ++ ":"

/-- The per-column line. -/
def colLine (c d : String) : String := "  - " ++ c ++ " (" ++ d ++ ")"

/-- The accumulation loop of `introspect_schema`: `ct` is
`current_table` (initially `None`). -/
def introspectLoop : Option String → List (String × String × String) → List String
  | _, [] => []
  | ct, (t, c, d) :: rest =>
    if some t ≠ ct then
      headerLine t :: colLine c d :: introspectLoop (some t) rest
    else
      colLine c d :: introspectLoop ct rest

/-- `introspect_schema` on the catalog rows: the formatted lines joined
with newlines. -/
def introspect_schema (rows : List (String × String × String)) : String :=
  String.intercalate ("\n") (introspectLoop none rows)

/-- A catalog as the spec describes it: tables (in the order the catalog
query returns them, i.e. by name) each with its columns in declared
position order.  `flattenCatalog` produces the rows the catalog query
yields: one row per column — a zero-column table yields no rows. -/
def flattenCatalog (cat : List (String × List (String × String))) :
    List (String × String × String) :=
  cat.flatMap (fun tc => tc.2.map (fun cd => (tc.1, cd.1, cd.2)))

/-- The text block the code actually produces per table: a header line
followed by one line per column — except that a zero-column table
contributes nothing at all (it has no catalog rows). -/
def expectedLines (cat : List (String × List (String × String))) : List String :=
  cat.flatMap (fun tc =>
    match tc.2 with
    | [] => []
    | _ => headerLine tc.1 :: tc.2.map (fun cd => colLine cd.1 cd.2))

/-! ## `_sanitize_table_name` (`app/core/fight_manager.py`) -/

/-- The fallback table name. -/
def userTableName : List Char := ("user_table").toList

/-- The `if not name: name = "user_table"` fallback after filtering. -/
def sanitizeBase (filtered : List Char) : List Char :=
  if filtered = [] then userTableName else filtered

/-- The `if name[0].isdigit(): name = f"t_{name}"` prefixing step. -/
def sanitizeDigitGuard (base : List Char) : List Char :=
  if pyIsDigit base.headI then 't' :: '_' :: base else base

/-- `_sanitize_table_name`: strip, lowercase, replace spaces by
underscores, keep only alphanumerics/underscores, fall back to
`user_table` when empty, and prefix `t_` when the first character is a
digit.  (The leading underscore of the Python name is dropped.) -/
def sanitize_table_name (s : String) : String :=
  let stripped := pyStrip s.toList
  if stripped = [] then String.mk userTableName
  else
    let replaced := (stripped.map pyToLower).map (fun c => if c = ' ' then '_' else c)
    let filtered := replaced.filter (fun c => pyIsAlnum c || c == '_')
    String.mk (sanitizeDigitGuard (sanitizeBase filtered))

/-! ## Prompt builders and per-turn helpers (`app/core/fight_manager.py`) -/

/-- `_theme_prompt`. -/
def themePrompt (theme : String) : String :=
  let t := pyStripStr theme.toLower
  if t = "finance bros" then
    "Make an absurd finance-style query referencing salaries, bonuses, offshore accounts, and suspicious transactions."
  else if t = "space pirates" then
    "Make a chaotic, space-pirate themed query about stolen goods, illegal trades, and intergalactic bounties."
  else if t = "healthcare" then
    "Make a healthcare-flavored query about patients, treatments, billing, and questionable procedures."
  else if t = "gaming" then
    "Make a gaming-style query about players, scores, loot drops, and ridiculous achievements."
  else if t = "fantasy kingdom" then
    "Make a fantasy kingdom query involving dragons, gold, quests, and wildly unbalanced magic items."
  else
    "Write an absurd, theatrical SQL query that surfaces the " ++ sqc ++ "weirdest" ++ sqc ++ " things in the data."

/-- `_difficulty_prompt`. -/
def difficultyPrompt (difficulty : String) : String :=
  let d := pyStripStr difficulty.toLower
  if d = "tryhard" then
    "Use at least one JOIN, GROUP BY, and a CASE expression to make it more complex."
  else if d = "insane window functions" then
    "Use multiple JOINs, nested subqueries, CTEs, and window functions to make the query hilariously overengineered."
  else
    "Keep it relatively simple but still weird. One or two joins max, no need for heavy window functions."

/-- `_estimate_tokens`: zero for empty text, else `max(1, len // 4)`. -/
def estimateTokens (s : String) : Nat :=
  if s = "" then 0 else max 1 (s.length / 4)

/-- A result row as previewed by the executor: column name / rendered
value pairs (the dict built from the cursor's column names). -/
abbrev RowD : Type := List (String × String)

/-- Python's `repr` of a list of strings, as interpolated by
`_summarize_result`'s f-string. -/
def pyReprStrList (l : List String) : String :=
  "[" ++ String.intercalate (", ") (l.map (fun k => sqc ++ k ++ sqc)) ++ "]"

/-- `FightManager._summarize_result`. -/
def summarizeResult (rows : List RowD) : String :=
  if rows = [] then "No rows returned."
  else
    toString rows.length ++ " rows previewed; first row keys: " ++
      pyReprStrList ((rows.headI : List (String × String)).map Prod.fst)

/-- The fixed rejection message recorded for an inadmissible query. -/
def rejectionMsg : String :=
  "Rejected: query is not SELECT-only or contains forbidden keywords."

/-- The follow-up challenge text built at the end of every round. -/
def followupChallenge (theme difficulty_text : String) : String :=
  "Building on the previous query and result, stay in the " ++ sqc ++ theme ++ sqc ++
    " theme. " ++ difficulty_text ++ " Make it even more outrageous and complex than before."

/-! ## `FightManager.run_fight` (`app/core/fight_manager.py`)

The LLM agents and the database connection are external collaborators:
an agent is its `generate_sql` capability, which either returns text or
raises (modelled as `Except`); the connection is an execute-and-preview
capability that either returns the previewed rows (already capped and
zipped with column names, as the cursor boundary does) or raises.  The
`on_progress` callback is observational only and is not modelled. -/

/-- An agent: a name and its `generate_sql(schema, previous_query,
previous_result_summary, challenge)` capability, which may raise. -/
structure AgentM where
  name : String
  generate_sql : String → Option String → Option String → String → Except String String

/-- A `FightManager` after construction: two agents, the round count,
the introspected schema text, and the database execute-and-preview
capability. -/
structure ManagerM where
  agent_a : AgentM
  agent_b : AgentM
  rounds : Nat
  schema_description : String
  db : String → Except String (List RowD)

/-- The `AgentTurn` record (`app/models/fight_log.py`).  Wall-clock
`duration_seconds` is environment noise and is not modelled. -/
structure TurnRec where
  round_number : Nat
  agent_name : String
  prompt : String
  sql : String
  is_valid_sql : Bool
  error : Option String
  rows_preview : Option (List RowD)
  complexity_score : ℚ
  estimated_tokens : Nat
deriving DecidableEq, Inhabited

/-- The Python exceptions `run_fight` can raise or propagate. -/
inductive PyErr where
  /-- The pre-flight configuration error. -/
  | valueError (msg : String)
  /-- Indexing `human_sqls` out of range. -/
  | indexError
  /-- Subscripting `None` when `human_sqls` is absent in human mode. -/
  | typeError
  /-- An exception propagated out of an agent's `generate_sql`. -/
  | agentError (msg : String)
deriving DecidableEq

/-- The loop-carried state of `run_fight`. -/
structure LoopSt where
  previous_query : Option String
  previous_result_summary : Option String
  challenge : String
  currentIsA : Bool
  human_turn_index : Nat
  turns : List TurnRec

/-- Build one turn record from the obtained SQL: admission filter, then
execution with every database exception caught into `error`, exactly as
the loop body does. -/
def mkTurn (m : ManagerM) (round_num : Nat) (agent_name challenge sql : String)
    (tokens : Nat) : TurnRec :=
  let valid := is_select_only sql
  let eo : Option String × Option (List RowD) :=
    if valid then
      match m.db sql with
      | .ok rows => (none, some rows)
      | .error e => (some e, none)
    else (some rejectionMsg, none)
  { round_number := round_num
    agent_name := agent_name
    prompt := challenge
    sql := sql
    is_valid_sql := valid && eo.1.isNone
    error := eo.1
    rows_preview := eo.2
    complexity_score := complexity_score sql
    estimated_tokens := tokens }

/-- One iteration of the `run_fight` loop: obtain the SQL (human list or
agent call — the latter may raise and then propagates), build the turn
record, and thread the next-round state.  The code's
`current_agent is self.agent_a` object-identity test is modelled by the
side flag `currentIsA`, the two agents being distinct objects. -/
def stepTurn (m : ManagerM) (mode : String) (human_sqls : Option (List String))
    (theme difficulty_text : String) (round_num : Nat) (st : LoopSt) :
    Except PyErr (TurnRec × LoopSt) :=
  let current := if st.currentIsA then m.agent_a else m.agent_b
  let sqlRes : Except PyErr (String × Nat × Nat) :=
    if mode = "you_vs_ai" ∧ st.currentIsA = true then
      match human_sqls with
      | none => .error .typeError
      | some l =>
        match l.get? st.human_turn_index with
        | none => .error .indexError
        | some sql => .ok (sql, 0, st.human_turn_index + 1)
    else
      match current.generate_sql m.schema_description st.previous_query
          st.previous_result_summary st.challenge with
      | .error e => .error (.agentError e)
      | .ok sql => .ok (sql, estimateTokens sql, st.human_turn_index)
  match sqlRes with
  | .error e => .error e
  | .ok (sql, tokens, idx) =>
    let turn := mkTurn m round_num current.name st.challenge sql tokens
    .ok (turn,
      { previous_query := some sql
        previous_result_summary := some (summarizeResult (turn.rows_preview.getD []))
        challenge := followupChallenge theme difficulty_text
        currentIsA := !st.currentIsA
        human_turn_index := idx
        turns := st.turns ++ [turn] })

/-- The `for round_num in range(1, rounds + 1)` loop, with the produced
turn records accumulated in `st.turns`; on a propagated exception the
records produced so far (the manager's `self.turns`) are returned
alongside the exception. -/
def runLoop (m : ManagerM) (mode : String) (human_sqls : Option (List String))
    (theme difficulty_text : String) :
    Nat → Nat → LoopSt → List TurnRec × Option PyErr
  | 0, _, st => (st.turns, none)
  | remaining + 1, round_num, st =>
    match stepTurn m mode human_sqls theme difficulty_text round_num st with
    | .error e => (st.turns, some e)
    | .ok (_, next) =>
      runLoop m mode human_sqls theme difficulty_text remaining (round_num + 1) next

/-- Python's `not human_sqls`: `None` or the empty list. -/
def notHuman : Option (List String) → Bool
  | none => true
  | some [] => true
  | some _ => false

/-- `0 if not human_sqls else len(human_sqls)`. -/
def humanCount : Option (List String) → Nat
  | none => 0
  | some l => l.length

/-- The pre-flight configuration error message. -/
def preflightError (expected got : Nat) : String :=
  "Expected " ++ toString expected ++ " human SQL queries, but got " ++
    toString got ++ "."

/-- `FightManager.run_fight`: pre-flight validation in `you_vs_ai` mode,
then the round loop from round 1 with agent A to move.  The result is
the produced turn records together with the propagated exception, if
any (`none` means normal return). -/
def run_fight (m : ManagerM) (mode : String) (human_sqls : Option (List String))
    (theme difficulty : String) : List TurnRec × Option PyErr :=
  let theme_text := themePrompt theme
  let difficulty_text := difficultyPrompt difficulty
  let base_challenge := theme_text ++ " " ++ difficulty_text
  if mode = "you_vs_ai" ∧
      (notHuman human_sqls = true ∨ humanCount human_sqls ≠ m.rounds / 2) then
    ([], some (.valueError
      (preflightError (m.rounds / 2)
        (if notHuman human_sqls then 0 else humanCount human_sqls))))
  else
    runLoop m mode human_sqls theme difficulty_text m.rounds 1
      { previous_query := none
        previous_result_summary := none
        challenge := base_challenge
        currentIsA := true
        human_turn_index := 0
        turns := [] }

/-- An agent whose generation capability always returns text (never
raises). -/
def TotalAgent (a : AgentM) : Prop :=
  ∀ schema pq prs ch, ∃ s, a.generate_sql schema pq prs ch = Except.ok s

/-- Which side moves on the `i`-th turn (0-based) when `isA` moves
first: sides alternate strictly. -/
def sideAt (isA : Bool) (i : Nat) : Bool :=
  if i % 2 = 0 then isA else !isA

/-! ## Legacy `FightManager.execute_round` (`sql_fight_manager.py`)

The legacy module calls `validate_query`, `execute_query_safely` and
`calculate_query_score`, none of which exist in the repository sources
(only this caller does).  Modelled from the spec: they are taken as
opaque parameters — a validator returning pass/fail with an optional
message, a safe executor returning `(result, error)` with the error set
exactly on failure, and a scorer.  Wall-clock `execution_time` is fixed
to 0.  The legacy agent exposes `generate_query(schema, challenge,
previous_query, previous_result_summary)`, which may raise. -/

/-- A legacy agent: its `generate_query` capability. -/
structure LegacyAgentM where
  name : String
  generate_query : String → String → Option String → Option String → Except String String

/-- The `FightRound` record the legacy manager builds (its dataclass
declaration is absent from the sources; fields are those its
constructor calls populate). -/
structure FightRound where
  round_number : Nat
  agent_name : String
  query : Option String
  success : Bool
  error : Option String
  execution_time : ℚ
  result_row_count : Nat
  result_preview : Option (List RowD)
  score : ℚ
deriving DecidableEq

/-- Python's f-string rendering of an `Optional[str]`. -/
def pyStrOfOptStr : Option String → String
  | none => "None"
  | some s => s

/-- Legacy `FightManager.execute_round`: catch a generation exception
into a zero-score failed round; otherwise validate, execute safely, and
score.  `validate_query`, `execute_query_safely` and
`calculate_query_score` are the spec-modelled opaque collaborators. -/
def execute_round
    (validate_query : String → Bool × Option String)
    (execute_query_safely : String → Option (List RowD) × Option String)
    (calculate_query_score : String → Nat → ℚ → ℚ)
    (schema : String) (agent : LegacyAgentM) (round_num : Nat) (agent_name : String)
    (challenge : String) (previous_query previous_result_summary : Option String) :
    FightRound :=
  match agent.generate_query schema challenge previous_query previous_result_summary with
  | .error e =>
    { round_number := round_num
      agent_name := agent_name
      query := none
      success := false
      error := some ("Agent failed to generate query: " ++ e)
      execution_time := 0
      result_row_count := 0
      result_preview := none
      score := 0 }
  | .ok query =>
    match validate_query query with
    | (false, validation_error) =>
      { round_number := round_num
        agent_name := agent_name
        query := some query
        success := false
        error := some ("Query validation failed: " ++ pyStrOfOptStr validation_error)
        execution_time := 0
        result_row_count := 0
        result_preview := none
        score := 0 }
    | (true, _) =>
      match execute_query_safely query with
      | (_, some err) =>
        { round_number := round_num
          agent_name := agent_name
          query := some query
          success := false
          error := some err
          execution_time := 0
          result_row_count := 0
          result_preview := none
          score := 0 }
      | (result, none) =>
        let row_count := (result.getD []).length
        { round_number := round_num
          agent_name := agent_name
          query := some query
          success := true
          error := none
          execution_time := 0
          result_row_count := row_count
          result_preview :=
            match result with
            | some rows => if 0 < rows.length then some (rows.take 10) else none
            | none => none
          score := calculate_query_score query row_count 0 }


/-! ## Concrete instances used by witnesses -/

/-- A fight manager whose two agents always answer with fixed SELECTs
and whose database returns one previewed row. -/
def cmOk : ManagerM :=
  { agent_a := ⟨"Alpha", fun _ _ _ _ => .ok ("SELECT 1")⟩
    agent_b := ⟨"Beta", fun _ _ _ _ => .ok ("SELECT 2")⟩
    rounds := 2
    schema_description := ""
    db := fun _ => .ok [[("x", "1")]] }

/-- `cmOk` with a single round. -/
def cmOne : ManagerM := { cmOk with rounds := 1 }

/-- `cmOk` with four rounds. -/
def cmFour : ManagerM := { cmOk with rounds := 4 }

/-- A manager whose first agent's generation capability always raises. -/
def cmBoom : ManagerM :=
  { cmOk with agent_a := ⟨"Alpha", fun _ _ _ _ => .error ("boom")⟩ }

/-- A legacy agent whose generation capability always raises. -/
def lagBoom : LegacyAgentM := ⟨"Alpha", fun _ _ _ _ => .error ("boom")⟩

/-! ## Helper lemmas -/

/-- `roundHalfEven` is the identity on integers. -/
lemma roundHalfEven_intCast (n : ℤ) : roundHalfEven ((n : ℚ)) = n := by
  unfold roundHalfEven
  dsimp only
  rw [Int.floor_intCast]
  norm_num

/-- `round(x, 2)` leaves multiples of one tenth unchanged. -/
lemma round2_div10 (n : ℤ) : round2 ((n : ℚ) / 10) = (n : ℚ) / 10 := by
  unfold round2
  have h : ((n : ℚ) / 10) * 100 = ((10 * n : ℤ) : ℚ) := by push_cast; ring
  rw [h, roundHalfEven_intCast]
  push_cast
  ring

/-- Every score the code can produce is a multiple of one tenth, so the
final 2-decimal rounding is the identity and the score is exactly the
weighted sum of the six counts. -/
lemma complexity_score_eq_sum (sql : String) :
    complexity_score sql = ∑ j : Fin 6, scoreWeight j * (cntAt j sql : ℚ) := by
  have w0 : scoreWeight 0 = 2 := rfl
  have w1 : scoreWeight 1 = 3/2 := rfl
  have w2 : scoreWeight 2 = 1 := rfl
  have w3 : scoreWeight 3 = 3 := rfl
  have w4 : scoreWeight 4 = 3/2 := rfl
  have w5 : scoreWeight 5 = 1/5 := rfl
  have n0 : cntAt 0 sql = countSub kwJoin (sql.toList.map pyToLower) := rfl
  have n1 : cntAt 1 sql = countSub kwGroupBy (sql.toList.map pyToLower) := rfl
  have n2 : cntAt 2 sql = countSub kwOrderBy (sql.toList.map pyToLower) := rfl
  have n3 : cntAt 3 sql = countSub kwOver (sql.toList.map pyToLower) := rfl
  have n4 : cntAt 4 sql = countSub kwCase (sql.toList.map pyToLower) := rfl
  have n5 : cntAt 5 sql = countSub kwParen (sql.toList.map pyToLower) := rfl
  have hsum : (∑ j : Fin 6, scoreWeight j * (cntAt j sql : ℚ)) =
      ((20 * cntAt 0 sql + 15 * cntAt 1 sql + 10 * cntAt 2 sql + 30 * cntAt 3 sql +
        15 * cntAt 4 sql + 2 * cntAt 5 sql : ℤ) : ℚ) / 10 := by
    rw [Fin.sum_univ_six, w0, w1, w2, w3, w4, w5]
    push_cast
    ring
  have hscore : complexity_score sql =
      round2 (∑ j : Fin 6, scoreWeight j * (cntAt j sql : ℚ)) := by
    unfold complexity_score
    dsimp only
    congr 1
    rw [Fin.sum_univ_six, w0, w1, w2, w3, w4, w5, n0, n1, n2, n3, n4, n5]
    ring
  rw [hscore, hsum, round2_div10]

/-- The digit-guard step yields a non-empty, safe identifier whenever it
is fed a non-empty list of safe characters. -/
lemma sanitizeDigitGuard_spec (base : List Char) (hne : base ≠ [])
    (hall : ∀ c ∈ base, (pyIsAlnum c || c == '_') = true) :
    sanitizeDigitGuard base ≠ [] ∧
    (sanitizeDigitGuard base).all (fun c => pyIsAlnum c || c == '_') = true ∧
    pyIsDigit ((sanitizeDigitGuard base).headI) = false := by
  unfold sanitizeDigitGuard
  by_cases hd : pyIsDigit base.headI = true
  · rw [if_pos hd]
    refine ⟨by simp, ?_, by show pyIsDigit 't' = false; decide⟩
    rw [List.all_eq_true]
    intro c hc
    have hc2 : c = 't' ∨ c = '_' ∨ c ∈ base := by simpa using hc
    rcases hc2 with rfl | rfl | hc2
    · decide
    · decide
    · exact hall c hc2
  · rw [if_neg hd]
    exact ⟨hne, List.all_eq_true.mpr hall, Bool.not_eq_true _ ▸ Bool.of_not_eq_true hd⟩

/-- `sanitizeBase` is never empty. -/
lemma sanitizeBase_ne_nil (filtered : List Char) : sanitizeBase filtered ≠ [] := by
  unfold sanitizeBase
  by_cases h : filtered = []
  · rw [if_pos h]; decide
  · rw [if_neg h]; exact h

/-- Every character of `sanitizeBase filtered` is safe when every
character of `filtered` is. -/
lemma sanitizeBase_all (filtered : List Char)
    (hall : ∀ c ∈ filtered, (pyIsAlnum c || c == '_') = true) :
    ∀ c ∈ sanitizeBase filtered, (pyIsAlnum c || c == '_') = true := by
  unfold sanitizeBase
  by_cases h : filtered = []
  · rw [if_pos h]; decide
  · rw [if_neg h]; exact hall

/-! ## Claim theorems -/

/-- C2: for every input text that does not begin, after leading
whitespace, with the case-insensitive token `SELECT`, the admission
filter `is_select_only` returns `false`. -/
theorem C2_reject_without_select_token (sql : String)
    (h : beginsWithSelectToken sql = false) : is_select_only sql = false := by
  have hp : selectOnlyPatternMatch sql.data = false := h
  simp [is_select_only, hp]

/-- Witness for C2 at a concrete rejected input. -/
theorem C2_reject_without_select_token_witness :
    beginsWithSelectToken ("INSERT INTO people VALUES (1)") = false ∧
    is_select_only ("INSERT INTO people VALUES (1)") = false :=
  ⟨by decide, C2_reject_without_select_token ("INSERT INTO people VALUES (1)") (by decide)⟩

/-- C3: for every input text containing, case-insensitively and at any
position, one of the denylisted substrings, `is_select_only` returns
`false`, even if the text begins with `SELECT`. -/
theorem C3_reject_forbidden_keyword (sql kw : String) (hk : kw ∈ FORBIDDEN_KEYWORDS)
    (hc : containsSub kw.toList (sql.toList.map pyToLower) = true) :
    is_select_only sql = false := by
  have hany : FORBIDDEN_KEYWORDS.any
      (fun k => containsSub k.data (List.map pyToLower sql.data)) = true :=
    List.any_eq_true.mpr ⟨kw, hk, hc⟩
  simp [is_select_only, hany]

/-- Witness for C3 at a concrete input that begins with `SELECT` and
contains a denylisted substring. -/
theorem C3_reject_forbidden_keyword_witness :
    ("drop" ∈ FORBIDDEN_KEYWORDS) ∧
    containsSub ("drop").toList (("SELECT 1; DROP TABLE people").toList.map pyToLower) = true ∧
    is_select_only ("SELECT 1; DROP TABLE people") = false :=
  ⟨by decide, by decide,
    C3_reject_forbidden_keyword ("SELECT 1; DROP TABLE people") ("drop") (by decide) (by decide)⟩

/-- C5: `complexity_score` is a pure function of the text equal to the
weighted sum of the six case-insensitive occurrence counts — weights
2.0, 1.5, 1.0, 3.0, 1.5 and 0.2 — rounded to 2 decimal places. -/
theorem C5_score_formula (sql : String) :
    complexity_score sql =
      round2 ((countSub kwJoin (sql.toList.map pyToLower) : ℚ) * 2 +
        (countSub kwGroupBy (sql.toList.map pyToLower) : ℚ) * (3/2) +
        (countSub kwOrderBy (sql.toList.map pyToLower) : ℚ) * 1 +
        (countSub kwOver (sql.toList.map pyToLower) : ℚ) * 3 +
        (countSub kwCase (sql.toList.map pyToLower) : ℚ) * (3/2) +
        (countSub kwParen (sql.toList.map pyToLower) : ℚ) * (1/5)) := by
  unfold complexity_score
  dsimp only
  congr 1
  ring

/-- C6: with all other counted substrings' occurrence counts equal, one
extra occurrence of the `k`-th counted substring raises the score by
exactly that substring's weight — the rounding to 2 decimals cannot
collapse it, because every score is a multiple of one tenth. -/
theorem C6_score_strict_increase (s t : String) (k : Fin 6)
    (hsame : ∀ j : Fin 6, j ≠ k → cntAt j t = cntAt j s)
    (hinc : cntAt k t = cntAt k s + 1) :
    complexity_score t = complexity_score s + scoreWeight k := by
  rw [complexity_score_eq_sum, complexity_score_eq_sum]
  rw [Finset.sum_eq_sum_diff_singleton_add (Finset.mem_univ k),
    Finset.sum_eq_sum_diff_singleton_add (Finset.mem_univ k)]
  have hdiff : ∑ j ∈ Finset.univ \ {k}, scoreWeight j * (cntAt j t : ℚ) =
      ∑ j ∈ Finset.univ \ {k}, scoreWeight j * (cntAt j s : ℚ) := by
    refine Finset.sum_congr rfl (fun j hj => ?_)
    have hjk : j ≠ k := by
      have h2 := (Finset.mem_sdiff.mp hj).2
      simpa using h2
    rw [hsame j hjk]
  rw [hdiff, hinc]
  push_cast
  ring

/-- Witness for C6: one extra `" join "` raises the score by exactly 2. -/
theorem C6_score_strict_increase_witness :
    (∀ j : Fin 6, j ≠ 0 → cntAt j ("x join y") = cntAt j ("x")) ∧
    cntAt 0 ("x join y") = cntAt 0 ("x") + 1 ∧
    complexity_score ("x join y") = complexity_score ("x") + scoreWeight 0 :=
  ⟨by decide, by decide,
    C6_score_strict_increase ("x") ("x join y") 0 (by decide) (by decide)⟩

/-- C10: `_sanitize_table_name` always returns a non-empty identifier
made of alphanumerics and underscores whose first character is not a
digit. -/
theorem C10_sanitize_table_name_safe (s : String) :
    (sanitize_table_name s).toList ≠ [] ∧
    ((sanitize_table_name s).toList.all (fun c => pyIsAlnum c || c == '_')) = true ∧
    pyIsDigit ((sanitize_table_name s).toList.headI) = false := by
  unfold sanitize_table_name
  by_cases h1 : pyStrip s.toList = []
  · rw [if_pos h1]
    exact ⟨by decide, by decide, by decide⟩
  · rw [if_neg h1]
    dsimp only
    exact sanitizeDigitGuard_spec _ (sanitizeBase_ne_nil _)
      (sanitizeBase_all _ (fun c hc => (List.mem_filter.mp hc).2))

/-- Witness for C10 at a concrete digit-leading input. -/
theorem C10_sanitize_table_name_safe_witness :
    (sanitize_table_name ("123 My Table!")).toList ≠ [] ∧
    ((sanitize_table_name ("123 My Table!")).toList.all (fun c => pyIsAlnum c || c == '_')) = true ∧
    pyIsDigit ((sanitize_table_name ("123 My Table!")).toList.headI) = false :=
  C10_sanitize_table_name_safe ("123 My Table!")

/-- Rows of a single table are formatted as column lines while that
table stays current. -/
lemma introspectLoop_same_table (t : String) (cs : List (String × String))
    (rows : List (String × String × String)) :
    introspectLoop (some t) (cs.map (fun cd => (t, cd.1, cd.2)) ++ rows) =
      cs.map (fun cd => colLine cd.1 cd.2) ++ introspectLoop (some t) rows := by
  induction cs with
  | nil => simp
  | cons c cs ih =>
    simp only [List.map_cons, List.cons_append, introspectLoop]
    rw [if_neg (by simp)]
    simp [ih]

/-- The formatting loop over a flattened catalog whose table names are
distinct and all different from the current table. -/
lemma introspectLoop_catalog (cat : List (String × List (String × String))) :
    ∀ ct : Option String, (∀ name ∈ cat.map Prod.fst, some name ≠ ct) →
      (cat.map Prod.fst).Nodup →
      introspectLoop ct (flattenCatalog cat) = expectedLines cat := by
  induction cat with
  | nil => intro ct _ _; rfl
  | cons tc rest ih =>
    intro ct hct hnd
    obtain ⟨t, cols⟩ := tc
    have hnd2 : (rest.map Prod.fst).Nodup := (List.nodup_cons.mp hnd).2
    have htnot : t ∉ rest.map Prod.fst := (List.nodup_cons.mp hnd).1
    cases cols with
    | nil =>
      show introspectLoop ct (flattenCatalog rest) = expectedLines rest
      exact ih ct (fun name hn => hct name (by simp [hn])) hnd2
    | cons c cs =>
      have hflat : flattenCatalog ((t, c :: cs) :: rest) =
          (t, c.1, c.2) :: (cs.map (fun cd => (t, cd.1, cd.2)) ++ flattenCatalog rest) := by
        simp [flattenCatalog]
      rw [hflat]
      have hne : some t ≠ ct := hct t (by simp)
      simp only [introspectLoop, if_pos hne]
      rw [introspectLoop_same_table]
      have hrest : introspectLoop (some t) (flattenCatalog rest) = expectedLines rest := by
        refine ih (some t) ?_ hnd2
        intro name hn
        intro hcontra
        exact htnot (by simpa [← Option.some_inj.mp hcontra] using hn)
      rw [hrest]
      simp [expectedLines]

/-- C9 (amended): for every catalog with distinct table names — listed
in the order the catalog query returns them, i.e. by name —
`introspect_schema` renders, for each table having at least one column,
one header line followed by one line per column in declared-position
order; a table with zero columns contributes no catalog rows and
therefore no header line at all. -/
theorem C9_schema_rendering (cat : List (String × List (String × String)))
    (hnd : (cat.map Prod.fst).Nodup) :
    introspect_schema (flattenCatalog cat) =
      String.intercalate ("\n") (expectedLines cat) := by
  unfold introspect_schema
  rw [introspectLoop_catalog cat none (fun name _ => by simp) hnd]

/-- Witness for C9's amended statement at a concrete two-table catalog. -/
theorem C9_schema_rendering_witness :
    introspect_schema (flattenCatalog
        [("people", [("id", "INTEGER"), ("name", "VARCHAR")]), ("pets", [("tag", "INTEGER")])]) =
      String.intercalate ("\n") (expectedLines
        [("people", [("id", "INTEGER"), ("name", "VARCHAR")]), ("pets", [("tag", "INTEGER")])]) :=
  C9_schema_rendering
    [("people", [("id", "INTEGER"), ("name", "VARCHAR")]), ("pets", [("tag", "INTEGER")])]
    (by decide)

/-- C9 counterexample: a zero-column table emits no header line, against
the claim's "a table with zero columns still emits its header line".
The catalog below has the zero-column table `empty_table` (with the
distinct-name, name-ordered shape the claim assumes), yet the rendered
block contains no `TABLE empty_table:` header — it equals exactly the
block of the one-column table `t`. -/
theorem C9_zero_column_no_header :
    introspect_schema (flattenCatalog [("empty_table", []), ("t", [("c", "INTEGER")])]) =
      "\nTABLE t:\n  - c (INTEGER)" ∧
    containsSub ("TABLE empty_table").toList
      (introspect_schema (flattenCatalog [("empty_table", []), ("t", [("c", "INTEGER")])])).toList
      = false := by
  constructor
  · rfl
  · decide

/-- A successful step appends exactly one `mkTurn`-built record and
flips the side. -/
lemma stepTurn_ok_spec (m : ManagerM) (mode : String) (hs : Option (List String))
    (th dt : String) (rn : Nat) (st : LoopSt) (t : TurnRec) (st' : LoopSt)
    (h : stepTurn m mode hs th dt rn st = .ok (t, st')) :
    (∃ sql tokens,
      t = mkTurn m rn (if st.currentIsA = true then m.agent_a else m.agent_b).name
        st.challenge sql tokens) ∧
    st'.turns = st.turns ++ [t] ∧ st'.currentIsA = !st.currentIsA := by
  unfold stepTurn at h
  dsimp only at h
  split at h
  · exact absurd h (by simp)
  · rename_i sql tokens idx heq
    rw [Except.ok.injEq, Prod.mk.injEq] at h
    obtain ⟨ht, hst⟩ := h
    refine ⟨⟨sql, tokens, ht.symm⟩, ?_, ?_⟩
    · rw [← hst, ht]
    · rw [← hst]

/-- A failed step propagates only a `typeError`, `indexError` or
`agentError` — never the pre-flight `valueError`. -/
lemma stepTurn_error_spec (m : ManagerM) (mode : String) (hs : Option (List String))
    (th dt : String) (rn : Nat) (st : LoopSt) (e : PyErr)
    (h : stepTurn m mode hs th dt rn st = .error e) :
    e = .typeError ∨ e = .indexError ∨ ∃ msg, e = .agentError msg := by
  unfold stepTurn at h
  dsimp only at h
  split at h
  · rename_i e0 heq
    rw [Except.error.injEq] at h
    subst h
    split at heq
    · split at heq
      · rw [Except.error.injEq] at heq
        exact Or.inl heq.symm
      · split at heq
        · rw [Except.error.injEq] at heq
          exact Or.inr (Or.inl heq.symm)
        · exact absurd heq (by simp)
    · split at heq
      · rename_i msg hgen
        rw [Except.error.injEq] at heq
        exact Or.inr (Or.inr ⟨msg, heq.symm⟩)
      · exact absurd heq (by simp)
  · exact absurd h (by simp)

/-- In dual-agent mode with agents that always return text, every step
succeeds. -/
lemma stepTurn_ai_ok (m : ManagerM) (hs : Option (List String)) (th dt : String)
    (rn : Nat) (st : LoopSt) (hA : TotalAgent m.agent_a) (hB : TotalAgent m.agent_b) :
    ∃ r, stepTurn m "ai_vs_ai" hs th dt rn st = .ok r := by
  have hgen : ∃ sql, (if st.currentIsA = true then m.agent_a else m.agent_b).generate_sql
      m.schema_description st.previous_query st.previous_result_summary st.challenge =
        Except.ok sql := by
    by_cases hside : st.currentIsA = true
    · rw [if_pos hside]; exact hA _ _ _ _
    · rw [if_neg hside]; exact hB _ _ _ _
  obtain ⟨sql, hsql⟩ := hgen
  unfold stepTurn
  dsimp only
  rw [if_neg (by simp : ¬("ai_vs_ai" = "you_vs_ai" ∧ st.currentIsA = true))]
  rw [hsql]
  exact ⟨_, rfl⟩

/-- Every record `mkTurn` builds satisfies the validity invariant: a
non-empty error forces `is_valid_sql = false`, and a valid error-free
record carries a (possibly empty) row preview. -/
lemma mkTurn_invariant (m : ManagerM) (rn : Nat) (an ch sql : String) (tok : Nat) :
    ((mkTurn m rn an ch sql tok).error ≠ none →
      (mkTurn m rn an ch sql tok).is_valid_sql = false) ∧
    ((mkTurn m rn an ch sql tok).error = none →
      (mkTurn m rn an ch sql tok).is_valid_sql = true →
      ∃ rows, (mkTurn m rn an ch sql tok).rows_preview = some rows) := by
  unfold mkTurn
  dsimp only
  by_cases hv : is_select_only sql = true
  · rw [if_pos hv]
    cases hdb : m.db sql with
    | ok rows => exact ⟨fun hc => absurd rfl hc, fun _ _ => ⟨rows, rfl⟩⟩
    | error e => exact ⟨fun _ => by simp, fun hc => absurd hc (by simp)⟩
  · rw [if_neg hv]
    exact ⟨fun _ => by simp [Bool.eq_false_iff.mpr hv], fun hc => absurd hc (by simp)⟩

/-- Any property enjoyed by every `mkTurn`-built record holds for every
record the round loop ever produces. -/
lemma runLoop_turns_pred (P : TurnRec → Prop)
    (hmk : ∀ m rn an ch sql tok, P (mkTurn m rn an ch sql tok))
    (m : ManagerM) (mode : String) (hs : Option (List String)) (th dt : String) :
    ∀ r rn st, (∀ t ∈ st.turns, P t) →
      ∀ t ∈ (runLoop m mode hs th dt r rn st).1, P t := by
  intro r
  induction r with
  | zero => intro rn st hst t ht; exact hst t ht
  | succ r ih =>
    intro rn st hst t ht
    simp only [runLoop] at ht
    cases hstep : stepTurn m mode hs th dt rn st with
    | error e =>
      rw [hstep] at ht
      exact hst t ht
    | ok pr =>
      obtain ⟨t0, st'⟩ := pr
      rw [hstep] at ht
      obtain ⟨⟨sql, tok, ht0⟩, hturns, -⟩ :=
        stepTurn_ok_spec m mode hs th dt rn st t0 st' hstep
      refine ih (rn + 1) st' ?_ t ht
      intro u hu
      rw [hturns] at hu
      rcases List.mem_append.mp hu with hu | hu
      · exact hst u hu
      · have : u = t0 := by simpa using hu
        rw [this, ht0]
        exact hmk m rn _ st.challenge sql tok

/-- The round loop never yields the pre-flight `valueError`. -/
lemma runLoop_no_valueError (m : ManagerM) (mode : String) (hs : Option (List String))
    (th dt : String) :
    ∀ r rn st msg, (runLoop m mode hs th dt r rn st).2 ≠ some (.valueError msg) := by
  intro r
  induction r with
  | zero => intro rn st msg h; simp [runLoop] at h
  | succ r ih =>
    intro rn st msg h
    simp only [runLoop] at h
    cases hstep : stepTurn m mode hs th dt rn st with
    | error e =>
      rw [hstep] at h
      dsimp only at h
      have he : e = .valueError msg := by simpa using h
      rcases stepTurn_error_spec m mode hs th dt rn st e hstep with h1 | h1 | ⟨m1, h1⟩ <;>
        rw [h1] at he <;> exact absurd he (by simp)
    | ok pr =>
      obtain ⟨t0, st'⟩ := pr
      rw [hstep] at h
      exact ih (rn + 1) st' msg h

/-- Alternation: the side moving on turn `i + 1` from state `b` is the
side moving on turn `i` from state `!b`. -/
lemma sideAt_succ (b : Bool) (i : Nat) : sideAt b (i + 1) = sideAt (!b) i := by
  unfold sideAt
  rcases Nat.mod_two_eq_zero_or_one i with h | h
  · have h2 : (i + 1) % 2 = 1 := by omega
    simp [h, h2]
  · have h2 : (i + 1) % 2 = 0 := by omega
    simp [h, h2]

/-- In dual-agent mode with total agents, the loop on `r` remaining
rounds appends exactly `r` records, numbered consecutively and strictly
alternating sides. -/
lemma runLoop_ai (m : ManagerM) (hs : Option (List String)) (th dt : String)
    (hA : TotalAgent m.agent_a) (hB : TotalAgent m.agent_b) :
    ∀ r rn st, ∃ l, runLoop m "ai_vs_ai" hs th dt r rn st = (st.turns ++ l, none) ∧
      l.length = r ∧
      ∀ i (hi : i < l.length),
        (l.get ⟨i, hi⟩).round_number = rn + i ∧
        (l.get ⟨i, hi⟩).agent_name =
          (if sideAt st.currentIsA i = true then m.agent_a.name else m.agent_b.name) := by
  intro r
  induction r with
  | zero =>
    intro rn st
    refine ⟨[], by simp [runLoop], rfl, ?_⟩
    intro i hi
    exact absurd hi (by simp)
  | succ r ih =>
    intro rn st
    obtain ⟨pr, hstep⟩ := stepTurn_ai_ok m hs th dt rn st hA hB
    obtain ⟨t0, st'⟩ := pr
    obtain ⟨⟨sql, tok, ht0⟩, hturns, hflip⟩ :=
      stepTurn_ok_spec m "ai_vs_ai" hs th dt rn st t0 st' hstep
    obtain ⟨l, hrun, hlen, hprops⟩ := ih (rn + 1) st'
    refine ⟨t0 :: l, ?_, by simp [hlen], ?_⟩
    · simp only [runLoop, hstep]
      rw [hrun, hturns]
      simp
    · intro i hi
      cases i with
      | zero =>
        refine ⟨by rw [show (t0 :: l).get ⟨0, hi⟩ = t0 from rfl, ht0]; rfl, ?_⟩
        rw [show (t0 :: l).get ⟨0, hi⟩ = t0 from rfl, ht0]
        have hs0 : sideAt st.currentIsA 0 = st.currentIsA := by unfold sideAt; simp
        rw [hs0]
        show (if st.currentIsA = true then m.agent_a else m.agent_b).name = _
        by_cases hc : st.currentIsA = true
        · rw [if_pos hc, if_pos hc]
        · rw [if_neg hc, if_neg hc]
      | succ i =>
        have hi2 : i < l.length := by simpa using hi
        obtain ⟨h1, h2⟩ := hprops i hi2
        have hget : (t0 :: l).get ⟨i + 1, hi⟩ = l.get ⟨i, hi2⟩ := rfl
        refine ⟨by rw [hget, h1]; omega, ?_⟩
        rw [hget, h2, hflip, ← sideAt_succ]

/-- A step in dual-agent mode whose current agent raises propagates the
exception. -/
lemma stepTurn_ai_gen_error (m : ManagerM) (hs : Option (List String)) (th dt : String)
    (rn : Nat) (st : LoopSt) (e : String)
    (hgen : (if st.currentIsA = true then m.agent_a else m.agent_b).generate_sql
      m.schema_description st.previous_query st.previous_result_summary st.challenge =
        Except.error e) :
    stepTurn m "ai_vs_ai" hs th dt rn st = .error (.agentError e) := by
  unfold stepTurn
  dsimp only
  rw [if_neg (by simp : ¬("ai_vs_ai" = "you_vs_ai" ∧ st.currentIsA = true))]
  rw [hgen]

/-- C1 (amended): the legacy executor `sql_fight_manager.execute_round`
catches an agent-generation exception and folds it into a failed round
record with zero score, never propagating it; the current orchestrator
`app.core.fight_manager.run_fight` instead propagates an
agent-generation exception to its caller, producing no record for that
turn. -/
theorem C1_generation_error_folded_only_in_legacy :
    (∀ (vq : String → Bool × Option String)
        (eqs : String → Option (List RowD) × Option String)
        (cqs : String → Nat → ℚ → ℚ)
        (schema : String) (agent : LegacyAgentM) (rn : Nat) (an ch : String)
        (pq prs : Option String) (e : String),
      agent.generate_query schema ch pq prs = .error e →
      execute_round vq eqs cqs schema agent rn an ch pq prs =
        { round_number := rn, agent_name := an, query := none, success := false,
          error := some ("Agent failed to generate query: " ++ e), execution_time := 0,
          result_row_count := 0, result_preview := none, score := 0 }) ∧
    (∀ (m : ManagerM) (hs : Option (List String)) (th d e : String) (r : Nat),
      m.rounds = r + 1 →
      (∀ pq prs ch, m.agent_a.generate_sql m.schema_description pq prs ch = Except.error e) →
      run_fight m "ai_vs_ai" hs th d = ([], some (.agentError e))) := by
  constructor
  · intro vq eqs cqs schema agent rn an ch pq prs e hgen
    unfold execute_round
    rw [hgen]
  · intro m hs th d e r hr hgen
    unfold run_fight
    dsimp only
    rw [if_neg (by simp)]
    rw [hr]
    simp only [runLoop]
    rw [stepTurn_ai_gen_error m hs th (difficultyPrompt d) 1
      { previous_query := none, previous_result_summary := none,
        challenge := themePrompt th ++ " " ++ difficultyPrompt d,
        currentIsA := true, human_turn_index := 0, turns := [] } e
      (hgen none none (themePrompt th ++ " " ++ difficultyPrompt d))]

/-- Witness for C1's amended statement: a legacy round with a raising
agent folds the failure; the live orchestrator propagates it. -/
theorem C1_generation_error_witness :
    execute_round (fun _ => (true, none)) (fun _ => (none, none)) (fun _ _ _ => 0)
        ("") lagBoom 1 ("Alpha") ("go") none none =
      { round_number := 1, agent_name := "Alpha", query := none, success := false,
        error := some ("Agent failed to generate query: boom"), execution_time := 0,
        result_row_count := 0, result_preview := none, score := 0 } ∧
    run_fight cmBoom "ai_vs_ai" none ("a") ("b") = ([], some (.agentError ("boom"))) :=
  ⟨C1_generation_error_folded_only_in_legacy.1 _ _ _ ("") lagBoom 1 ("Alpha") ("go")
      none none ("boom") rfl,
    C1_generation_error_folded_only_in_legacy.2 cmBoom none ("a") ("b") ("boom") 1 rfl
      (fun _ _ _ => rfl)⟩

/-- C1 counterexample: the live orchestrator does not catch an
agent-generation exception — `cmBoom`'s first agent raises in round 1
and `run_fight` propagates the exception with no turn record folded,
against the claim that every such exception is caught and folded. -/
theorem C1_generation_error_propagates :
    run_fight cmBoom "ai_vs_ai" none ("a") ("b") = ([], some (.agentError ("boom"))) := by
  rfl

/-- C4: a fight of N rounds in dual-agent mode, with any agent behaviour
that returns text, produces exactly N turn records with agent identity
alternating strictly A, B, A, B, ... and round numbers 1..N in order. -/
theorem C4_rounds_count_and_alternation (m : ManagerM) (hs : Option (List String))
    (th d : String) (hA : TotalAgent m.agent_a) (hB : TotalAgent m.agent_b) :
    ∃ l, run_fight m "ai_vs_ai" hs th d = (l, none) ∧ l.length = m.rounds ∧
      ∀ i (hi : i < l.length),
        (l.get ⟨i, hi⟩).round_number = i + 1 ∧
        (l.get ⟨i, hi⟩).agent_name =
          (if i % 2 = 0 then m.agent_a.name else m.agent_b.name) := by
  obtain ⟨l, hrun, hlen, hprops⟩ := runLoop_ai m hs th (difficultyPrompt d) hA hB m.rounds 1
    { previous_query := none, previous_result_summary := none,
      challenge := themePrompt th ++ " " ++ difficultyPrompt d,
      currentIsA := true, human_turn_index := 0, turns := [] }
  refine ⟨l, ?_, hlen, ?_⟩
  · unfold run_fight
    dsimp only
    rw [if_neg (by simp)]
    simpa using hrun
  · intro i hi
    obtain ⟨h1, h2⟩ := hprops i hi
    refine ⟨by rw [h1]; omega, ?_⟩
    rw [h2]
    by_cases hp : i % 2 = 0
    · have hsd : sideAt true i = true := by unfold sideAt; rw [if_pos hp]
      simp [hsd, hp]
    · have hsd : sideAt true i = false := by unfold sideAt; rw [if_neg hp]; rfl
      simp [hsd, hp]

/-- Witness for C4 on the concrete two-round manager. -/
theorem C4_rounds_count_and_alternation_witness :
    ∃ l, run_fight cmOk "ai_vs_ai" none ("a") ("b") = (l, none) ∧ l.length = cmOk.rounds ∧
      ∀ i (hi : i < l.length),
        (l.get ⟨i, hi⟩).round_number = i + 1 ∧
        (l.get ⟨i, hi⟩).agent_name =
          (if i % 2 = 0 then cmOk.agent_a.name else cmOk.agent_b.name) :=
  C4_rounds_count_and_alternation cmOk none ("a") ("b")
    (fun _ _ _ _ => ⟨"SELECT 1", rfl⟩) (fun _ _ _ _ => ⟨"SELECT 2", rfl⟩)

/-- C7 (amended): in `you_vs_ai` mode the pre-flight configuration
`ValueError` is raised — before any turn executes — if and only if the
human-query list is absent, is empty, or has a length different from
`rounds // 2`.  (The claim's pure length criterion fails: an empty list
is rejected even when `rounds // 2 = 0`.) -/
theorem C7_preflight_validation_iff (m : ManagerM) (hs : Option (List String))
    (th d : String) :
    (∃ msg, run_fight m "you_vs_ai" hs th d = ([], some (.valueError msg))) ↔
      (notHuman hs = true ∨ humanCount hs ≠ m.rounds / 2) := by
  constructor
  · rintro ⟨msg, hrun⟩
    by_contra hbad
    rw [not_or] at hbad
    obtain ⟨h1, h2⟩ := hbad
    unfold run_fight at hrun
    dsimp only at hrun
    rw [if_neg (fun hc => hc.2.elim h1 h2)] at hrun
    have h3 := congrArg Prod.snd hrun
    dsimp at h3
    exact runLoop_no_valueError m "you_vs_ai" hs th (difficultyPrompt d) m.rounds 1 _ msg h3
  · intro hbad
    unfold run_fight
    dsimp only
    rw [if_pos ⟨rfl, hbad⟩]
    exact ⟨_, rfl⟩

/-- Witness for C7's amended statement: a wrong-length list on a
four-round fight triggers the pre-flight error. -/
theorem C7_preflight_validation_witness :
    ∃ msg, run_fight cmFour "you_vs_ai" (some ["SELECT 1"]) ("a") ("b") =
      ([], some (.valueError msg)) :=
  (C7_preflight_validation_iff cmFour (some ["SELECT 1"]) ("a") ("b")).mpr (by decide)

/-- C7 counterexample: with one round and an empty human list, the list
length 0 equals `rounds // 2 = 0`, yet the pre-flight ValueError is
still raised — Python's falsy-list test fires before the length test —
against the claim that equality of lengths admits the fight. -/
theorem C7_empty_list_still_raises :
    humanCount (some ([] : List String)) = cmOne.rounds / 2 ∧
    run_fight cmOne "you_vs_ai" (some []) ("a") ("b") =
      ([], some (.valueError ("Expected 0 human SQL queries, but got 0."))) :=
  ⟨rfl, rfl⟩

/-- C8: every turn record `run_fight` produces has `is_valid_sql = false`
whenever its error is non-empty, and an error-free valid record always
carries a (possibly empty) row preview — no exception escaped the
executor for it. -/
theorem C8_record_validity_invariant (m : ManagerM) (mode : String)
    (hs : Option (List String)) (th d : String) (t : TurnRec)
    (ht : t ∈ (run_fight m mode hs th d).1) :
    (t.error ≠ none → t.is_valid_sql = false) ∧
    (t.error = none → t.is_valid_sql = true → ∃ rows, t.rows_preview = some rows) := by
  unfold run_fight at ht
  dsimp only at ht
  split at ht
  · simp at ht
  · exact runLoop_turns_pred
      (fun u => (u.error ≠ none → u.is_valid_sql = false) ∧
        (u.error = none → u.is_valid_sql = true → ∃ rows, u.rows_preview = some rows))
      (fun m2 rn an ch sql tok => mkTurn_invariant m2 rn an ch sql tok)
      m mode hs th (difficultyPrompt d) m.rounds 1 _
      (fun u hu => absurd hu (List.not_mem_nil u)) t ht

/-- The default head of a non-empty list is a member. -/
lemma headI_mem_of_ne_nil {α : Type} [Inhabited α] (l : List α) (h : l ≠ []) :
    l.headI ∈ l := by
  cases l with
  | nil => exact absurd rfl h
  | cons a as => exact List.mem_cons_self a as

/-- Witness for C8 on the first record of a concrete fight. -/
theorem C8_record_validity_invariant_witness :
    ((run_fight cmOk "ai_vs_ai" none ("a") ("b")).1.headI.error ≠ none →
      (run_fight cmOk "ai_vs_ai" none ("a") ("b")).1.headI.is_valid_sql = false) ∧
    ((run_fight cmOk "ai_vs_ai" none ("a") ("b")).1.headI.error = none →
      (run_fight cmOk "ai_vs_ai" none ("a") ("b")).1.headI.is_valid_sql = true →
      ∃ rows, (run_fight cmOk "ai_vs_ai" none ("a") ("b")).1.headI.rows_preview = some rows) :=
  C8_record_validity_invariant cmOk "ai_vs_ai" none ("a") ("b")
    ((run_fight cmOk "ai_vs_ai" none ("a") ("b")).1.headI)
    (headI_mem_of_ne_nil _ (by decide))
